import Mathlib

/-!
Verification of the PayPal Rust client's request-execution engine
(`src/client/paypal.rs`) against its specification.

The repository's `src/client/paypal.rs` is embedded shallowly below. Types it
consumes from the sibling modules `auth.rs`, `request.rs`, `endpoint.rs` and
`error.rs` (which are not part of the provided sources) are modelled from the
specification; each such definition carries a doc comment starting with
"Modelled from the spec:". External library behaviour (reqwest request
builders, serde serialization, the reqwest-retry middleware, http_types URLs)
is embedded from the libraries' documented semantics.
-/

set_option linter.unusedVariables false

deriving instance DecidableEq for Except

namespace Paypal

/-! ## URL model (http_types::Url) -/

/-- A parsed URL, as used by `http_types::Url`: scheme, host, path and an
optional query string. -/
structure Url where
  scheme : String
  host : String
  path : String
  query : Option String
  deriving DecidableEq, Repr

/-- Whether a string starts with a slash. -/
def startsWithSlash (p : String) : Bool :=
  match p.toList with
  | '/' :: _ => true
  | _ => false

/-- Embeds `Url::set_path`: replaces the path component; a relative path is rooted
with a leading slash (http_types/url semantics for special schemes). -/
def Url.set_path (u : Url) (p : String) : Url :=
  { u with path := if startsWithSlash p then p else "/" ++ p }

/-- Embeds `Url::set_query`: replaces the query component. -/
def Url.set_query (u : Url) (q : Option String) : Url :=
  { u with query := q }

/-- Parsing of an absolute https URL string (the subset `Url::from_str` needs
for the two environment base URLs): scheme prefix, host up to the first
slash, remaining path (defaulting to "/"). -/
def parseUrl (s : String) : Option Url :=
  match s.toList with
  | 'h' :: 't' :: 't' :: 'p' :: 's' :: ':' :: '/' :: '/' :: rest =>
      let host := rest.takeWhile (fun c => c ≠ '/')
      let path := rest.dropWhile (fun c => c ≠ '/')
      if host = [] then none
      else some { scheme := "https", host := String.mk host,
                  path := if path = [] then "/" else String.mk path, query := none }
  | _ => none

/-! ## Environment and environment base URLs -/

/-- Embeds `Environment` from `paypal.rs`. -/
inductive Environment
  | Sandbox
  | Live
  deriving DecidableEq, Repr

/-- Embeds `Environment::as_str` from `paypal.rs`. -/
def Environment.as_str : Environment → String
  | .Sandbox => "sandbox"
  | .Live => "live"

/-- Modelled from the spec: `RequestUrl` lives in `src/client/request.rs`,
which is not among the sources. The two base-URL strings are pinned by the
spec's end-to-end scenarios and by `tests::test_compose_url` in `paypal.rs`. -/
inductive RequestUrl
  | Sandbox
  | Live
  deriving DecidableEq, Repr

/-- Modelled from the spec: the textual base URL for each `RequestUrl`. -/
def RequestUrl.urlString : RequestUrl → String
  | .Sandbox => "https://api-m.sandbox.paypal.com"
  | .Live => "https://api-m.paypal.com"

/-- Modelled from the spec: `RequestUrl::as_url` parses the base-URL string. -/
def RequestUrl.as_url (r : RequestUrl) : Except String Url :=
  match parseUrl r.urlString with
  | some u => .ok u
  | none => .error "could not parse"

/-- The `RequestUrl` selected for an `Environment` (the `match environment`
in `Client::new`). -/
def requestUrlFor : Environment → RequestUrl
  | .Sandbox => RequestUrl.Sandbox
  | .Live => RequestUrl.Live

/-! ## base64 and the Basic authorization value -/

/-- The standard base64 alphabet (`base64::engine::general_purpose::STANDARD`). -/
def base64Alphabet : List Char :=
  "ABCDEFGHIJKLMNOPQRSTUVWXYZabcdefghijklmnopqrstuvwxyz0123456789+/".toList

/-- The base64 digit for a 6-bit value. -/
def base64Char (n : Nat) : Char :=
  base64Alphabet.getD n '='

/-- base64-encode a byte list, three bytes to four output characters, padding
with '='. -/
def base64EncodeBytes : List Nat → List Char
  | [] => []
  | [b0] =>
      [base64Char (b0 / 4), base64Char (b0 % 4 * 16), '=', '=']
  | [b0, b1] =>
      [base64Char (b0 / 4), base64Char (b0 % 4 * 16 + b1 / 16),
       base64Char (b1 % 16 * 4), '=']
  | b0 :: b1 :: b2 :: rest =>
      base64Char (b0 / 4) :: base64Char (b0 % 4 * 16 + b1 / 16) ::
      base64Char (b1 % 16 * 4 + b2 / 64) :: base64Char (b2 % 64) ::
      base64EncodeBytes rest

/-- The UTF-8 bytes of one character, as natural numbers. -/
def charUtf8 (c : Char) : List Nat :=
  let v := c.toNat
  if v ≤ 0x7f then [v]
  else if v ≤ 0x7ff then [0xc0 + v / 64, 0x80 + v % 64]
  else if v ≤ 0xffff then [0xe0 + v / 4096, 0x80 + v / 64 % 64, 0x80 + v % 64]
  else [0xf0 + v / 262144, 0x80 + v / 4096 % 64, 0x80 + v / 64 % 64, 0x80 + v % 64]

/-- The UTF-8 bytes of a string. -/
def stringUtf8Bytes (s : String) : List Nat :=
  (s.toList.map charUtf8).flatten

/-- base64-encode the UTF-8 bytes of a string. -/
def base64Encode (s : String) : String :=
  String.mk (base64EncodeBytes (stringUtf8Bytes s))

/-- Embeds `get_basic_auth_for_user_service` from `paypal.rs`. -/
def get_basic_auth_for_user_service (username client_secret : String) : String :=
  "Basic " ++ base64Encode (username ++ ":" ++ client_secret)

/-! ## Auth data (spec-modelled: `src/client/auth.rs` is not in the sources) -/

/-- Modelled from the spec: `AuthData` holds the current bearer token, its
type and the expiry instant; created empty/default at Client construction. -/
structure AuthData where
  access_token : String
  token_type : String
  expires_at : Nat
  deriving DecidableEq, Repr

/-- Modelled from the spec: the default (never-authenticated) `AuthData`. -/
def AuthData.default : AuthData :=
  { access_token := "", token_type := "", expires_at := 0 }

/-- Modelled from the spec: the fixed safety margin (in seconds) before
expiry at which the engine proactively refreshes. The spec fixes its
existence, not its value; no claim depends on the value. -/
def safetyMargin : Nat := 60

/-- Modelled from the spec: `AuthData::about_to_expire` is true when the
current time is within the safety margin of `expires_at`; on the default
(never-authenticated) data it is always true. Time is an explicit `now`
parameter. -/
def AuthData.about_to_expire (a : AuthData) (now : Nat) : Bool :=
  a.expires_at ≤ now + safetyMargin

/-- Modelled from the spec: the token endpoint's success response — access
token, token type and lifetime in seconds (`AuthResponse`). -/
structure AuthResponse where
  access_token : String
  token_type : String
  expires_in : Nat
  deriving DecidableEq, Repr

/-- Modelled from the spec: `AuthData::update` replaces token, token type and
expiry wholesale, recomputing `expires_at` as issue time + reported
lifetime. -/
def AuthData.update (a : AuthData) (r : AuthResponse) (now : Nat) : AuthData :=
  { access_token := r.access_token,
    token_type := r.token_type,
    expires_at := now + r.expires_in }

/-- Modelled from the spec: the auth-strategy tag of an endpoint descriptor
(`None | TokenRefresh`). -/
inductive AuthStrategy
  | NoAuthentication
  | TokenRefresh
  deriving DecidableEq, Repr

/-! ## Errors -/

/-- A serde_json deserialization error, abstracted to the one bit the engine
inspects: `serde_json::Error::is_eof`, true when the input ended
prematurely. -/
structure JsonError where
  is_eof : Bool
  deriving DecidableEq, Repr

/-- A field-level issue inside the provider error envelope. -/
structure FieldIssue where
  field : String
  issue : String
  deriving DecidableEq, Repr

/-- Modelled from the spec: the provider error envelope (`ValidationError`
in `src/client/error.rs`): error name, human message, optional field-level
details, optional debug identifier. -/
structure ValidationError where
  name : String
  message : String
  details : List FieldIssue
  debug_id : Option String
  deriving DecidableEq, Repr

/-- Modelled from the spec: the engine's error taxonomy (`PayPalError` in
`src/client/error.rs`): transport errors, API errors carrying the parsed
envelope, decoding errors, and configuration errors (`LibraryError`). -/
inductive PayPalError
  | Transport
  | Api (envelope : ValidationError)
  | Decoding (e : JsonError)
  | LibraryError (msg : String)
  deriving DecidableEq, Repr

/-- Modelled from serde_qs: its error type, opaque here. -/
inductive QsError
  | serialization (msg : String)
  deriving DecidableEq, Repr

/-! ## Headers and the reqwest request builder -/

/-- Modelled from the spec: `HttpRequestHeaders` from `src/client/request.rs`
as an association list in insertion order (`to_vec`). -/
abbrev HttpRequestHeaders := List (String × String)

/-- Modelled from the spec: `HttpRequestHeaders::new(authorization)` stores
the given Authorization value. -/
def HttpRequestHeaders.new (authorization : String) : HttpRequestHeaders :=
  [("authorization", authorization)]

/-- Model of reqwest's `RequestBuilder`: method, URL, a multi-valued header
map in append order, and an optional body. -/
structure RequestBuilder where
  method : String
  url : Url
  headers : List (String × String)
  body : Option String
  deriving DecidableEq, Repr

/-- reqwest's `RequestBuilder::header` APPENDS the value to the header map
(`HeaderMap::append`); an existing value for the same name is kept, not
replaced. -/
def RequestBuilder.header (rb : RequestBuilder) (k v : String) : RequestBuilder :=
  { rb with headers := rb.headers ++ [(k, v)] }

/-- reqwest's `RequestBuilder::body`: sets (replaces) the request body. -/
def RequestBuilder.setBody (rb : RequestBuilder) (b : String) : RequestBuilder :=
  { rb with body := some b }

/-- All values carried for one header name, in order. -/
def RequestBuilder.headerValues (rb : RequestBuilder) (k : String) : List String :=
  (rb.headers.filter (fun p => p.1 = k)).map Prod.snd

/-! ## The Client -/

/-- Embeds `USER_AGENT` from `paypal.rs` (the crate version is immaterial to every
claim). -/
def USER_AGENT : String := "PayPal/v2 Rust Bindings/0.1.0"

/-- Embeds `Client` from `paypal.rs`. The `Arc<RwLock<AuthData>>` cell is embedded
as a plain field updated by explicit state passing; the transport handle
(`reqwest::Client`) carries no engine-visible state and is omitted. -/
structure Client where
  default_headers : HttpRequestHeaders
  auth_data : AuthData
  user_agent : String
  client_secret : String
  username : String
  environment : Environment
  base_url : Url
  deriving DecidableEq, Repr

/-- Embeds `Client::new` from `paypal.rs`: selects the environment base URL, maps a
parse failure to `LibraryError`, and starts with default `AuthData`. -/
def Client.new (username client_secret : String) (environment : Environment) :
    Except PayPalError Client :=
  let authorization := get_basic_auth_for_user_service username client_secret
  match (match environment with
         | .Sandbox => RequestUrl.Sandbox
         | .Live => RequestUrl.Live).as_url with
  | .error _e => .error (.LibraryError "Could not parse environment Url")
  | .ok base_url =>
      .ok { environment := environment,
            client_secret := client_secret,
            username := username,
            default_headers := HttpRequestHeaders.new authorization,
            base_url := base_url,
            user_agent := USER_AGENT,
            auth_data := AuthData.default }

/-- The client record `Client::new` constructs, abbreviated for proofs. -/
def mkNewClient (username client_secret : String) (environment : Environment)
    (base_url : Url) : Client :=
  { default_headers := HttpRequestHeaders.new
      (get_basic_auth_for_user_service username client_secret),
    auth_data := AuthData.default,
    user_agent := USER_AGENT,
    client_secret := client_secret,
    username := username,
    environment := environment,
    base_url := base_url }

/-- Embeds `Client::compose_url` from `paypal.rs`: clones the base URL and sets the
path. The result is returned together with the (unchanged) client, making
the absence of mutation of the stored base URL explicit. -/
def Client.compose_url (c : Client) (request_path : String) : Url × Client :=
  let url := c.base_url
  (url.set_path request_path, c)

/-! ## Query parameters and serde_qs -/

/-- Modelled from the spec: `QueryParams` from `src/client/request.rs`, with
the optional fields exercised by `tests::test_compose_url_with_query`
(page, page_size, total_count_required). -/
structure QueryParams where
  page : Option Nat
  page_size : Option Nat
  total_count_required : Option Bool
  deriving DecidableEq, Repr

/-- Embeds `QueryParams::new()`: all fields unset. -/
def QueryParams.new : QueryParams :=
  { page := none, page_size := none, total_count_required := none }

/-- Reversed decimal digit characters of `n`, with explicit fuel to keep the
recursion structural (fuel `n` always suffices since `n / 10 < n`). -/
def natDigitsRev (fuel : Nat) (n : Nat) : List Char :=
  match fuel with
  | 0 => []
  | fuel + 1 => if n = 0 then [] else Nat.digitChar (n % 10) :: natDigitsRev fuel (n / 10)

/-- Decimal rendering of a natural number (serde's integer serialization). -/
def natDecimal (n : Nat) : String :=
  if n = 0 then "0"
  else String.mk (natDigitsRev n n).reverse

/-- serde's boolean serialization. -/
def boolString (b : Bool) : String :=
  if b then "true" else "false"

/-- The key/value pairs a `QueryParams` value serializes to, in declaration
order (serde_qs uses stable field order and skips unset fields). -/
def QueryParams.qsPairs (q : QueryParams) : List (String × String) :=
  (match q.page with
   | some n => [("page", natDecimal n)]
   | none => []) ++
  (match q.page_size with
   | some n => [("page_size", natDecimal n)]
   | none => []) ++
  (match q.total_count_required with
   | some b => [("total_count_required", boolString b)]
   | none => [])

/-- Join character lists with a separator character. -/
def joinSep (sep : Char) : List (List Char) → List Char
  | [] => []
  | [x] => x
  | x :: y :: rest => x ++ sep :: joinSep sep (y :: rest)

/-- One `key=value` component. -/
def renderPair (p : String × String) : List Char :=
  p.1.toList ++ '=' :: p.2.toList

/-- Modelled from serde_qs: `serde_qs::to_string` on `QueryParams` renders
the present fields as `key=value` pairs joined by `&`; for this shape
serialization cannot fail. -/
def serde_qs_to_string (q : QueryParams) : Except QsError String :=
  .ok (String.mk (joinSep '&' (q.qsPairs.map renderPair)))

/-- The body of `Client::compose_url_with_query` from `paypal.rs`, with the
result of `serde_qs::to_string(query)` (the `?` propagation point) as an
explicit argument: a serialization error propagates, an empty string leaves
the URL without a query component, otherwise the query is set. -/
def composeUrlWithSerializedQuery (c : Client) (request_path : String)
    (params_r : Except QsError String) : Except QsError Url :=
  match params_r with
  | .error e => .error e
  | .ok params =>
      let url := (c.compose_url request_path).1
      if params = "" then .ok url
      else .ok (url.set_query (some params))

/-- Embeds `Client::compose_url_with_query` from `paypal.rs`. -/
def Client.compose_url_with_query (c : Client) (request_path : String)
    (query : QueryParams) : Except QsError Url :=
  composeUrlWithSerializedQuery c request_path (serde_qs_to_string query)

/-- Split a character list on a separator character (the deserializer's view
of a query string). -/
def splitOnChar (sep : Char) : List Char → List (List Char)
  | [] => [[]]
  | c :: cs =>
      if c = sep then [] :: splitOnChar sep cs
      else
        match splitOnChar sep cs with
        | [] => [[c]]
        | g :: gs => (c :: g) :: gs

/-- Deserialize one `key=value` component into a pair. -/
def parseQsComponent (comp : List Char) : String × String :=
  match splitOnChar '=' comp with
  | [k, v] => (String.mk k, String.mk v)
  | _ => (String.mk comp, "")

/-- Modelled from serde_qs: deserializing a query string back into its
key/value pairs (split on `&`, then on `=`). -/
def parseQs (s : String) : List (String × String) :=
  if s = "" then []
  else (splitOnChar '&' s.toList).map parseQsComponent

/-! ## Endpoint descriptors -/

/-- Modelled from the spec: the `Endpoint` trait of `src/client/endpoint.rs`
as a capability record (§4.3): path, method (default GET), headers, optional
request body (default none), auth strategy (default `TokenRefresh`) and the
optional retry count of `request_strategy()`. The per-DTO serde instances are
embedded as the `encodeBody` / `decodeResponse` capabilities. -/
structure Endpoint (β ρ : Type) where
  path : String
  request_method : String := "GET"
  headers : HttpRequestHeaders := []
  request_body : Option β := none
  auth_strategy : AuthStrategy := .TokenRefresh
  retry_count : Option Nat := none
  encodeBody : β → String
  decodeResponse : String → Except JsonError ρ

/-- Modelled from the spec: `Endpoint::request_url` composes the
environment-selected base URL with the descriptor's path. -/
def environmentBaseUrl (env : Environment) : Url :=
  match parseUrl (requestUrlFor env).urlString with
  | some u => u
  | none => { scheme := "https", host := "", path := "/", query := none }

def Endpoint.request_url (e : Endpoint β ρ) (env : Environment) : Url :=
  (environmentBaseUrl env).set_path e.path

/-! ## The execution environment (oracle for network and external serde) -/

/-- The HTTP response the transport hands back: status code and body text. -/
structure HttpResponse where
  status : Nat
  body : String
  deriving DecidableEq, Repr

/-- The outcome of one transport-level send attempt. -/
inductive AttemptOutcome
  | networkError
  | response (r : HttpResponse)
  deriving DecidableEq, Repr

/-- The environment of one engine run: the current time, the stream of
token-endpoint send outcomes (attempt `i` yields `tokenAttempts i`), the
serde_json instances for the two externally defined DTOs (`AuthResponse`
and the `ValidationError` envelope), the outcome of the single primary send,
and the retry count configured on the `Authenticate` descriptor's
`request_strategy()` (modelled from the spec: `auth.rs` is not in the
sources, so the configured value is a parameter). -/
structure World where
  now : Nat
  tokenAttempts : Nat → AttemptOutcome
  parseAuthResponse : String → Except JsonError AuthResponse
  primary : AttemptOutcome
  parseValidation : String → Except JsonError ValidationError
  authEndpointRetryCount : Option Nat

/-! ## The authentication handshake with retry -/

/-- Modelled from the spec: reqwest-retry's transient classification —
network errors and 5xx server errors are transient; everything else
(including any other status and a successful response) is definitive. -/
def transientFailure : AttemptOutcome → Bool
  | .networkError => true
  | .response r => 500 ≤ r.status && r.status ≤ 599

/-- The retry loop of `RetryTransientMiddleware` with `ExponentialBackoff`
bounded by `max_retries`: attempt `i`, retry on a transient failure while
retries remain. Returns the list of attempted outcomes together with the
final (returned) outcome. Backoff delays are timing, not visible state, and
are not modelled. -/
def sendWithRetryAux (attempts : Nat → AttemptOutcome) : Nat → Nat → List AttemptOutcome × AttemptOutcome
  | i, 0 => ([attempts i], attempts i)
  | i, fuel + 1 =>
      let o := attempts i
      if transientFailure o then
        let r := sendWithRetryAux attempts (i + 1) fuel
        (o :: r.1, r.2)
      else ([o], o)

/-- The retried send with `max_retries` total allowed retries, starting at
attempt 0. -/
def sendWithRetry (max_retries : Nat) (attempts : Nat → AttemptOutcome) :
    List AttemptOutcome × AttemptOutcome :=
  sendWithRetryAux attempts 0 max_retries

/-- Embeds `Client::authenticate` from `paypal.rs`: computes the retry bound from
the `Authenticate` descriptor's configured retry count (0 when unset), sends
the token request through the retry middleware, parses the final body as an
`AuthResponse` (note: the status code is never inspected here), and on
success writes the parsed response wholesale into `AuthData`. Returns the
result, the updated client, and the ghost trace of token-endpoint send
attempts. -/
def Client.authenticate (c : Client) (w : World) :
    Except PayPalError Unit × Client × List AttemptOutcome :=
  let retries : Nat :=
    match w.authEndpointRetryCount with
    | some retry_count => retry_count
    | none => 0
  let sent := sendWithRetry retries w.tokenAttempts
  match sent.2 with
  | .networkError => (.error .Transport, c, sent.1)
  | .response r =>
      match w.parseAuthResponse r.body with
      | .error e => (.error (.Decoding e), c, sent.1)
      | .ok parsed_response =>
          (.ok (), { c with auth_data := c.auth_data.update parsed_response w.now }, sent.1)

/-! ## The request executor -/

/-- The literal `"{}"` the engine re-parses an empty body as. -/
def emptyObjectLiteral : String := "\x7b\x7d"

/-- The deserialization tail of `Client::execute` (`serde_json::from_str`
with the `or_else` empty-body normalization): a failure whose `is_eof` holds
is retried on the empty object literal, any other failure becomes a decoding
error. -/
def execDecodeBody (d : Endpoint β ρ) (text : String) : Except PayPalError ρ :=
  match d.decodeResponse text with
  | .ok v => .ok v
  | .error error =>
      if error.is_eof then
        match d.decodeResponse emptyObjectLiteral with
        | .ok v => .ok v
        | .error e2 => .error (.Decoding e2)
      else .error (.Decoding error)

/-- An observable event of one `execute` run: the completed Authenticator
invocation, or the primary send carrying the request that went out. -/
inductive ExecEvent
  | authenticateCall
  | primarySend (request : RequestBuilder)
  deriving DecidableEq, Repr

/-- The count of primary sends in a trace. -/
def countPrimary (tr : List ExecEvent) : Nat :=
  (tr.filter fun e =>
    match e with
    | .primarySend _ => true
    | _ => false).length

/-- The send-and-map stage of `Client::execute`: attach the bearer header
(reqwest appends it), send, map a non-2xx status through the envelope
parser, and deserialize a success body with the empty-body normalization. -/
def executeSend (d : Endpoint β ρ) (c : Client) (request : RequestBuilder) (w : World) :
    Except PayPalError ρ × Client × List ExecEvent :=
  let request := request.header "authorization"
    ("Bearer " ++ c.auth_data.access_token)
  match w.primary with
  | .networkError => (.error .Transport, c, [.primarySend request])
  | .response response =>
      if ¬ (200 ≤ response.status ∧ response.status ≤ 299) then
        match w.parseValidation response.body with
        | .ok envelope => (.error (.Api envelope), c, [.primarySend request])
        | .error e => (.error (.Decoding e), c, [.primarySend request])
      else
        (execDecodeBody d response.body, c, [.primarySend request])

/-- Embeds `Client::execute` from `paypal.rs`: when the descriptor's strategy is
`TokenRefresh` and the auth data is about to expire, run `authenticate` to
completion first (propagating its failure); then attach the bearer header
and send. Returns the result, the final client, and the event trace. -/
def Client.execute (d : Endpoint β ρ) (c : Client) (request : RequestBuilder) (w : World) :
    Except PayPalError ρ × Client × List ExecEvent :=
  if d.auth_strategy = AuthStrategy.TokenRefresh ∧ c.auth_data.about_to_expire w.now then
    match Client.authenticate c w with
    | (.error e, c1, _) => (.error e, c1, [.authenticateCall])
    | (.ok _, c1, _) =>
        let r := executeSend d c1 request w
        (r.1, r.2.1, .authenticateCall :: r.2.2)
  else
    executeSend d c request w

/-! ## The verb methods -/

/-- Embeds `Client::set_request_headers` from `paypal.rs`: apply each header in
order through the builder's `header` (append) operation. -/
def Client.set_request_headers (c : Client) (request_builder : RequestBuilder)
    (headers : HttpRequestHeaders) : RequestBuilder :=
  headers.foldl (fun rb kv => rb.header kv.1 kv.2) request_builder

/-- A fresh reqwest builder for a verb and URL (what `self.http.get(url)`
etc. produce): no headers, no body. -/
def freshRequest (method : String) (url : Url) : RequestBuilder :=
  { method := method, url := url, headers := [], body := none }

/-- serde_json's serialization of the `Option` request body
(`serde_json::to_string(&endpoint.request_body())`): `None` serializes to
the JSON literal `null`, `Some b` to the serialization of `b`. -/
def serde_json_to_string_option (encodeBody : β → String) : Option β → String
  | none => "null"
  | some v => encodeBody v

/-- Embeds `Client::get` from `paypal.rs`. -/
def Client.get (c : Client) (endpoint : Endpoint β ρ) (w : World) :
    Except PayPalError ρ × Client × List ExecEvent :=
  let req := freshRequest "GET" (endpoint.request_url c.environment)
  let req := c.set_request_headers req endpoint.headers
  Client.execute endpoint c req w

/-- Embeds `Client::post` from `paypal.rs`: serializes the `Option` body, applies
the descriptor headers, sets the body and delegates to `execute`. -/
def Client.post (c : Client) (endpoint : Endpoint β ρ) (w : World) :
    Except PayPalError ρ × Client × List ExecEvent :=
  let body := serde_json_to_string_option endpoint.encodeBody endpoint.request_body
  let req := freshRequest "POST" (endpoint.request_url c.environment)
  let req := c.set_request_headers req endpoint.headers
  Client.execute endpoint c (req.setBody body) w

/-- Embeds `Client::patch` from `paypal.rs`. -/
def Client.patch (c : Client) (endpoint : Endpoint β ρ) (w : World) :
    Except PayPalError ρ × Client × List ExecEvent :=
  let body := serde_json_to_string_option endpoint.encodeBody endpoint.request_body
  let req := freshRequest "PATCH" (endpoint.request_url c.environment)
  let req := c.set_request_headers req endpoint.headers
  Client.execute endpoint c (req.setBody body) w

/-- Embeds `Client::delete` from `paypal.rs`. -/
def Client.delete (c : Client) (endpoint : Endpoint β ρ) (w : World) :
    Except PayPalError ρ × Client × List ExecEvent :=
  let req := freshRequest "DELETE" (endpoint.request_url c.environment)
  let req := c.set_request_headers req endpoint.headers
  Client.execute endpoint c req w

/-! ## A concrete empty-required response decoder -/

/-- Skip JSON whitespace. -/
def skipWs : List Char → List Char
  | [] => []
  | c :: cs => if c = ' ' ∨ c = '\t' ∨ c = '\n' ∨ c = '\r' then skipWs cs else c :: cs

/-- Modelled from the spec: serde_json deserialization of the empty-required
response shape (`EmptyResponseBody`, declared in the client module, not in
the sources): an empty JSON object (possibly surrounded by whitespace)
succeeds; input that ends while a value or object is still open fails with
an end-of-input error (`is_eof`); any other input fails with a non-eof
decoding error. -/
def emptyShapeDecode (s : String) : Except JsonError Unit :=
  match skipWs s.toList with
  | [] => .error { is_eof := true }
  | '\x7b' :: rest =>
      match skipWs rest with
      | [] => .error { is_eof := true }
      | '\x7d' :: rest2 =>
          match skipWs rest2 with
          | [] => .ok ()
          | _ => .error { is_eof := false }
      | _ => .error { is_eof := false }
  | _ => .error { is_eof := false }

/-- The retry bound `Client::authenticate` computes: the `Authenticate`
descriptor's configured retry count, 0 when unset. -/
def authRetries (w : World) : Nat :=
  match w.authEndpointRetryCount with
  | some retry_count => retry_count
  | none => 0

/-! ## Concrete fixtures used by witnesses and counterexamples -/

/-- The client `Client::new("u", "p", Sandbox)` constructs. -/
def sandboxClient : Client :=
  { default_headers := [("authorization", "Basic dTpw")],
    auth_data := AuthData.default,
    user_agent := USER_AGENT,
    client_secret := "p",
    username := "u",
    environment := Environment.Sandbox,
    base_url := { scheme := "https", host := "api-m.sandbox.paypal.com", path := "/", query := none } }

/-- A client holding a token that is not about to expire at time 0. -/
def freshClient : Client :=
  { sandboxClient with
    auth_data := { access_token := "tok", token_type := "Bearer", expires_at := 10000 } }

/-- A descriptor whose response type is the empty-required shape (as for the
delete operations), with the default `TokenRefresh` strategy. -/
def emptyBodyEndpoint : Endpoint Unit Unit :=
  { path := "v1/notifications/webhooks/1", request_method := "DELETE",
    encodeBody := fun _ => "null", decodeResponse := emptyShapeDecode }

/-- A base world: token endpoint unreachable, primary send yields 200 with an
empty body, both external parsers fail without eof. -/
def baseWorld : World :=
  { now := 0,
    tokenAttempts := fun _ => .networkError,
    parseAuthResponse := fun _ => .error { is_eof := false },
    primary := .response { status := 200, body := "" },
    parseValidation := fun _ => .error { is_eof := false },
    authEndpointRetryCount := none }

/-- The initial builder of the delete call on `emptyBodyEndpoint`. -/
def deleteRequest : RequestBuilder :=
  freshRequest "DELETE" (emptyBodyEndpoint.request_url Environment.Sandbox)

/-- A world whose primary 2xx response body is non-empty and malformed
without being a truncation (no end-of-input). -/
def badBodyWorld : World :=
  { baseWorld with primary := .response { status := 200, body := "bad" } }

/-- A world whose primary response is 404 with a parseable error envelope. -/
def errorWorld : World :=
  { baseWorld with
    primary := .response { status := 404, body := "errbody" },
    parseValidation := fun s =>
      if s = "errbody" then
        .ok { name := "RESOURCE_NOT_FOUND", message := "not found",
              details := [], debug_id := some "d1" }
      else .error { is_eof := false } }

/-- A world whose primary response is 500 with an unparseable envelope. -/
def badEnvelopeWorld : World :=
  { baseWorld with primary := .response { status := 500, body := "zzz" } }

/-- A world whose token endpoint answers on the first attempt with a
parseable token response. -/
def authOkWorld : World :=
  { baseWorld with
    tokenAttempts := fun _ => .response { status := 200, body := "tokenresponse" },
    parseAuthResponse := fun s =>
      if s = "tokenresponse" then
        .ok { access_token := "T", token_type := "Bearer", expires_in := 100 }
      else .error { is_eof := false } }

/-- A world configured with 2 retries whose token endpoint fails twice
transiently, then succeeds. -/
def retryWorld : World :=
  { authOkWorld with
    authEndpointRetryCount := some 2,
    tokenAttempts := fun i =>
      if i = 0 then .networkError
      else if i = 1 then .response { status := 500, body := "e" }
      else .response { status := 200, body := "tokenresponse" } }

/-- A world configured with 2 retries whose token endpoint always fails
transiently. -/
def allFailWorld : World :=
  { baseWorld with authEndpointRetryCount := some 2 }

/-- A descriptor declaring its own Basic Authorization header and no token
refresh. -/
def basicHeaderEndpoint : Endpoint Unit Unit :=
  { path := "v1/x", headers := [("authorization", "Basic xyz")],
    auth_strategy := .NoAuthentication,
    encodeBody := fun _ => "null", decodeResponse := emptyShapeDecode }

/-- The request `Client::get` on `basicHeaderEndpoint` ends up sending: the
engine's Bearer header is appended after the descriptor's Basic header. -/
def bearerSentRequest : RequestBuilder :=
  { method := "GET",
    url := { scheme := "https", host := "api-m.sandbox.paypal.com",
             path := "/v1/x", query := none },
    headers := [("authorization", "Basic xyz"), ("authorization", "Bearer tok")],
    body := none }

/-- A POST descriptor carrying a body and a content-type header. -/
def postBodyEndpoint : Endpoint Nat Unit :=
  { path := "v1/x", request_method := "POST",
    headers := [("content-type", "application/json")],
    request_body := some 7,
    auth_strategy := .NoAuthentication,
    encodeBody := fun n => natDecimal n,
    decodeResponse := emptyShapeDecode }

/-- A plain bodyless GET descriptor. -/
def getPlainEndpoint : Endpoint Unit Unit :=
  { path := "v1/y", auth_strategy := .NoAuthentication,
    encodeBody := fun _ => "null", decodeResponse := emptyShapeDecode }

/-- The request `Client::post` on `postBodyEndpoint` sends. -/
def sentPost : RequestBuilder :=
  { method := "POST",
    url := { scheme := "https", host := "api-m.sandbox.paypal.com",
             path := "/v1/x", query := none },
    headers := [("content-type", "application/json"), ("authorization", "Bearer tok")],
    body := some "7" }

/-- The request `Client::get` on `getPlainEndpoint` sends. -/
def sentGet : RequestBuilder :=
  { method := "GET",
    url := { scheme := "https", host := "api-m.sandbox.paypal.com",
             path := "/v1/y", query := none },
    headers := [("authorization", "Bearer tok")],
    body := none }

/-! ## Lemmas about the query-string grammar -/

theorem splitOnChar_ne_nil (sep : Char) (l : List Char) : splitOnChar sep l ≠ [] := by
  cases l with
  | nil => simp [splitOnChar]
  | cons c cs =>
      simp only [splitOnChar]
      split
      · simp
      · split <;> simp

theorem splitOnChar_of_not_mem (sep : Char) (l : List Char) (h : sep ∉ l) :
    splitOnChar sep l = [l] := by
  induction l with
  | nil => rfl
  | cons c cs ih =>
      have hc : c ≠ sep := fun he => h (he ▸ List.mem_cons_self c cs)
      have hcs : sep ∉ cs := fun hm => h (List.mem_cons_of_mem c hm)
      simp only [splitOnChar, if_neg hc, ih hcs]

theorem splitOnChar_append (sep : Char) (x rest : List Char) (hx : sep ∉ x) :
    splitOnChar sep (x ++ sep :: rest) = x :: splitOnChar sep rest := by
  induction x with
  | nil => simp [splitOnChar]
  | cons a x' ih =>
      have ha : a ≠ sep := fun he => hx (he ▸ List.mem_cons_self a x')
      have hx' : sep ∉ x' := fun hm => hx (List.mem_cons_of_mem a hm)
      simp only [List.cons_append, splitOnChar, if_neg ha, List.append_eq, ih hx']

theorem splitOnChar_joinSep (sep : Char) (parts : List (List Char))
    (hne : parts ≠ []) (hwf : ∀ x ∈ parts, sep ∉ x) :
    splitOnChar sep (joinSep sep parts) = parts := by
  induction parts with
  | nil => exact absurd rfl hne
  | cons x parts ih =>
      cases parts with
      | nil =>
          simp only [joinSep]
          exact splitOnChar_of_not_mem sep x (hwf x (List.mem_cons_self x []))
      | cons y rest =>
          simp only [joinSep]
          rw [splitOnChar_append sep x _ (hwf x (List.mem_cons_self x _))]
          rw [ih (by simp) (fun z hz => hwf z (List.mem_cons_of_mem x hz))]

theorem joinSep_ne_nil (sep : Char) (parts : List (List Char))
    (hne : parts ≠ []) (hxs : ∀ x ∈ parts, x ≠ []) :
    joinSep sep parts ≠ [] := by
  cases parts with
  | nil => exact absurd rfl hne
  | cons x parts =>
      cases parts with
      | nil => exact hxs x (List.mem_cons_self x [])
      | cons y rest =>
          simp only [joinSep]
          intro h
          rcases List.append_eq_nil.mp h with ⟨_, h2⟩
          exact List.cons_ne_nil _ _ h2

theorem renderPair_ne_nil (p : String × String) : renderPair p ≠ [] := by
  unfold renderPair
  cases p.1.toList <;> simp

theorem parseQsComponent_renderPair (k v : String)
    (hk : '=' ∉ k.toList) (hv : '=' ∉ v.toList) :
    parseQsComponent (renderPair (k, v)) = (k, v) := by
  unfold parseQsComponent renderPair
  rw [splitOnChar_append '=' k.toList v.toList hk, splitOnChar_of_not_mem '=' v.toList hv]
  rfl

theorem natDigitsRev_chars (fuel : Nat) : ∀ (n : Nat), ∀ c ∈ natDigitsRev fuel n, c ≠ '&' ∧ c ≠ '=' := by
  induction fuel with
  | zero => intro n c hc; simp [natDigitsRev] at hc
  | succ fuel ih =>
      intro n c hc
      simp only [natDigitsRev] at hc
      split at hc
      · simp at hc
      · rcases List.mem_cons.mp hc with h | h
        · subst h
          have h10 : n % 10 < 10 := Nat.mod_lt _ (by norm_num)
          set m := n % 10 with hm
          interval_cases m <;> exact ⟨by decide, by decide⟩
        · exact ih (n / 10) c h

theorem natDecimal_chars (n : Nat) : ∀ c ∈ (natDecimal n).toList, c ≠ '&' ∧ c ≠ '=' := by
  unfold natDecimal
  split
  · intro c hc
    simp only [show ("0" : String).toList = ['0'] from rfl, List.mem_singleton] at hc
    subst hc
    exact ⟨by decide, by decide⟩
  · intro c hc
    have he : (String.mk (natDigitsRev n n).reverse).toList = (natDigitsRev n n).reverse := rfl
    rw [he, List.mem_reverse] at hc
    exact natDigitsRev_chars n n c hc

theorem boolString_chars (b : Bool) : ∀ c ∈ (boolString b).toList, c ≠ '&' ∧ c ≠ '=' := by
  cases b <;> decide

theorem mem_qsPairs (q : QueryParams) (p : String × String) (hp : p ∈ q.qsPairs) :
    (∃ n, p = ("page", natDecimal n)) ∨
    (∃ n, p = ("page_size", natDecimal n)) ∨
    (∃ b, p = ("total_count_required", boolString b)) := by
  unfold QueryParams.qsPairs at hp
  rcases List.mem_append.mp hp with h | h
  · rcases List.mem_append.mp h with h1 | h1
    · cases hq : q.page with
      | none => rw [hq] at h1; simp at h1
      | some n =>
          rw [hq] at h1
          simp only [List.mem_singleton] at h1
          exact Or.inl ⟨n, h1⟩
    · cases hq : q.page_size with
      | none => rw [hq] at h1; simp at h1
      | some n =>
          rw [hq] at h1
          simp only [List.mem_singleton] at h1
          exact Or.inr (Or.inl ⟨n, h1⟩)
  · cases hq : q.total_count_required with
    | none => rw [hq] at h; simp at h
    | some b =>
        rw [hq] at h
        simp only [List.mem_singleton] at h
        exact Or.inr (Or.inr ⟨b, h⟩)

theorem qsPairs_wf (q : QueryParams) (p : String × String) (hp : p ∈ q.qsPairs) :
    (∀ c ∈ p.1.toList, c ≠ '&' ∧ c ≠ '=') ∧ (∀ c ∈ p.2.toList, c ≠ '&' ∧ c ≠ '=') := by
  rcases mem_qsPairs q p hp with ⟨n, he⟩ | ⟨n, he⟩ | ⟨b, he⟩ <;> subst he
  · refine ⟨?_, natDecimal_chars n⟩
    show ∀ c ∈ ("page" : String).toList, c ≠ '&' ∧ c ≠ '='
    decide
  · refine ⟨?_, natDecimal_chars n⟩
    show ∀ c ∈ ("page_size" : String).toList, c ≠ '&' ∧ c ≠ '='
    decide
  · refine ⟨?_, boolString_chars b⟩
    show ∀ c ∈ ("total_count_required" : String).toList, c ≠ '&' ∧ c ≠ '='
    decide

theorem amp_not_mem_renderPair (q : QueryParams) (p : String × String) (hp : p ∈ q.qsPairs) :
    '&' ∉ renderPair p := by
  obtain ⟨h1, h2⟩ := qsPairs_wf q p hp
  unfold renderPair
  intro hm
  rcases List.mem_append.mp hm with h | h
  · exact (h1 '&' h).1 rfl
  · rcases List.mem_cons.mp h with h | h
    · exact absurd h (by decide)
    · exact (h2 '&' h).1 rfl

theorem parseQs_render (q : QueryParams) (hne : q.qsPairs ≠ []) :
    parseQs (String.mk (joinSep '&' (q.qsPairs.map renderPair))) = q.qsPairs := by
  unfold parseQs
  have hparts_ne : q.qsPairs.map renderPair ≠ [] := by
    simpa using hne
  have hparts_nonempty : ∀ x ∈ q.qsPairs.map renderPair, x ≠ [] := by
    intro x hx
    rcases List.mem_map.mp hx with ⟨p, _, hpe⟩
    exact hpe ▸ renderPair_ne_nil p
  have hjoin_ne : joinSep '&' (q.qsPairs.map renderPair) ≠ [] :=
    joinSep_ne_nil '&' _ hparts_ne hparts_nonempty
  split
  · next hstr =>
      exfalso
      apply hjoin_ne
      have : (String.mk (joinSep '&' (q.qsPairs.map renderPair))).toList =
          ("" : String).toList := by rw [hstr]
      simpa using this
  · next hstr =>
      have he : (String.mk (joinSep '&' (q.qsPairs.map renderPair))).toList =
          joinSep '&' (q.qsPairs.map renderPair) := rfl
      rw [he]
      rw [splitOnChar_joinSep '&' _ hparts_ne
        (fun x hx => by
          rcases List.mem_map.mp hx with ⟨p, hp, hpe⟩
          exact hpe ▸ amp_not_mem_renderPair q p hp)]
      rw [List.map_map]
      have : ∀ p ∈ q.qsPairs, (parseQsComponent ∘ renderPair) p = p := by
        intro p hp
        obtain ⟨h1, h2⟩ := qsPairs_wf q p hp
        have hk : '=' ∉ p.1.toList := fun hm => (h1 '=' hm).2 rfl
        have hv : '=' ∉ p.2.toList := fun hm => (h2 '=' hm).2 rfl
        calc (parseQsComponent ∘ renderPair) p
            = parseQsComponent (renderPair (p.1, p.2)) := by rfl
          _ = (p.1, p.2) := parseQsComponent_renderPair p.1 p.2 hk hv
          _ = p := by rfl
      rw [List.map_congr_left this]
      simp

/-! ## Structural lemmas about the engine -/

theorem executeSend_client_eq (d : Endpoint β ρ) (c : Client) (request : RequestBuilder)
    (w : World) : (executeSend d c request w).2.1 = c := by
  unfold executeSend
  cases w.primary with
  | networkError => rfl
  | response r =>
      dsimp only
      split
      · cases w.parseValidation r.body <;> rfl
      · rfl

theorem executeSend_trace_eq (d : Endpoint β ρ) (c : Client) (request : RequestBuilder)
    (w : World) : (executeSend d c request w).2.2 =
      [ExecEvent.primarySend
        (request.header "authorization" ("Bearer " ++ c.auth_data.access_token))] := by
  unfold executeSend
  cases w.primary with
  | networkError => rfl
  | response r =>
      dsimp only
      split
      · cases w.parseValidation r.body <;> rfl
      · rfl

theorem executeSend_result_success (d : Endpoint β ρ) (c : Client) (request : RequestBuilder)
    (w : World) (r : HttpResponse) (hp : w.primary = .response r)
    (hs : 200 ≤ r.status ∧ r.status ≤ 299) :
    (executeSend d c request w).1 = execDecodeBody d r.body := by
  unfold executeSend
  rw [hp]
  dsimp only
  rw [if_neg (not_not_intro hs)]

theorem executeSend_result_failure (d : Endpoint β ρ) (c : Client) (request : RequestBuilder)
    (w : World) (r : HttpResponse) (hp : w.primary = .response r)
    (hs : ¬ (200 ≤ r.status ∧ r.status ≤ 299)) :
    (executeSend d c request w).1 =
      (match w.parseValidation r.body with
       | .ok envelope => .error (.Api envelope)
       | .error e => .error (.Decoding e)) := by
  unfold executeSend
  rw [hp]
  dsimp only
  rw [if_pos hs]
  cases w.parseValidation r.body <;> rfl

theorem execute_not_gated (d : Endpoint β ρ) (c : Client) (request : RequestBuilder)
    (w : World)
    (h : ¬ (d.auth_strategy = AuthStrategy.TokenRefresh ∧ c.auth_data.about_to_expire w.now)) :
    Client.execute d c request w = executeSend d c request w := by
  unfold Client.execute
  rw [if_neg h]

theorem execute_gated_error (d : Endpoint β ρ) (c : Client) (request : RequestBuilder)
    (w : World) (e : PayPalError) (c1 : Client) (tr : List AttemptOutcome)
    (h : d.auth_strategy = AuthStrategy.TokenRefresh ∧ c.auth_data.about_to_expire w.now)
    (ha : Client.authenticate c w = (.error e, c1, tr)) :
    Client.execute d c request w = (.error e, c1, [ExecEvent.authenticateCall]) := by
  unfold Client.execute
  rw [if_pos h, ha]

theorem execute_gated_ok (d : Endpoint β ρ) (c : Client) (request : RequestBuilder)
    (w : World) (c1 : Client) (tr : List AttemptOutcome)
    (h : d.auth_strategy = AuthStrategy.TokenRefresh ∧ c.auth_data.about_to_expire w.now)
    (ha : Client.authenticate c w = (.ok (), c1, tr)) :
    Client.execute d c request w =
      ((executeSend d c1 request w).1, (executeSend d c1 request w).2.1,
        ExecEvent.authenticateCall :: (executeSend d c1 request w).2.2) := by
  unfold Client.execute
  rw [if_pos h, ha]

theorem authenticate_shape (c : Client) (w : World) :
    ((∃ e, Client.authenticate c w =
        (.error e, c, (sendWithRetry (authRetries w) w.tokenAttempts).1))) ∨
    (∃ resp r, (sendWithRetry (authRetries w) w.tokenAttempts).2 = .response resp ∧
       w.parseAuthResponse resp.body = .ok r ∧
       Client.authenticate c w =
         (.ok (), { c with auth_data := AuthData.update c.auth_data r w.now },
           (sendWithRetry (authRetries w) w.tokenAttempts).1)) := by
  unfold Client.authenticate authRetries
  dsimp only
  rcases hs : (sendWithRetry (match w.authEndpointRetryCount with
    | some retry_count => retry_count
    | none => 0) w.tokenAttempts).2 with _ | resp
  · left
    exact ⟨.Transport, rfl⟩
  · rcases hp : w.parseAuthResponse resp.body with e | r
    · left
      refine ⟨.Decoding e, ?_⟩
      dsimp only
      rw [hp]
    · right
      refine ⟨resp, r, rfl, hp, ?_⟩
      dsimp only
      rw [hp]

/-! ## Lemmas about the retry loop -/

theorem sendWithRetryAux_len (attempts : Nat → AttemptOutcome) (fuel : Nat) :
    ∀ i, (sendWithRetryAux attempts i fuel).1.length ≤ fuel + 1 := by
  induction fuel with
  | zero => intro i; simp [sendWithRetryAux]
  | succ fuel ih =>
      intro i
      simp only [sendWithRetryAux]
      split
      · simpa using Nat.succ_le_succ (ih (i + 1))
      · simp

theorem sendWithRetryAux_ne_nil (attempts : Nat → AttemptOutcome) (fuel : Nat) :
    ∀ i, (sendWithRetryAux attempts i fuel).1 ≠ [] := by
  induction fuel with
  | zero => intro i; simp [sendWithRetryAux]
  | succ fuel ih =>
      intro i
      simp only [sendWithRetryAux]
      split
      · simp
      · simp

theorem sendWithRetryAux_dropLast_transient (attempts : Nat → AttemptOutcome) (fuel : Nat) :
    ∀ i, ∀ o ∈ (sendWithRetryAux attempts i fuel).1.dropLast, transientFailure o = true := by
  induction fuel with
  | zero => intro i o ho; simp [sendWithRetryAux] at ho
  | succ fuel ih =>
      intro i o ho
      simp only [sendWithRetryAux] at ho
      split at ho
      · next htrans =>
          rcases hr : (sendWithRetryAux attempts (i + 1) fuel).1 with _ | ⟨x, xs⟩
          · exact absurd hr (sendWithRetryAux_ne_nil attempts fuel (i + 1))
          · rw [hr, List.dropLast_cons₂] at ho
            rcases List.mem_cons.mp ho with h | h
            · exact h ▸ htrans
            · exact ih (i + 1) o (hr ▸ h)
      · simp at ho

theorem sendWithRetryAux_all_transient_len (attempts : Nat → AttemptOutcome)
    (hall : ∀ j, transientFailure (attempts j) = true) (fuel : Nat) :
    ∀ i, (sendWithRetryAux attempts i fuel).1.length = fuel + 1 := by
  induction fuel with
  | zero => intro i; simp [sendWithRetryAux]
  | succ fuel ih =>
      intro i
      simp only [sendWithRetryAux]
      rw [if_pos (hall i)]
      simpa using ih (i + 1)

/-! ## Lemmas about header assembly -/

theorem set_request_headers_headers (c : Client) (rb : RequestBuilder)
    (headers : HttpRequestHeaders) :
    (c.set_request_headers rb headers).headers = rb.headers ++ headers ∧
    (c.set_request_headers rb headers).method = rb.method ∧
    (c.set_request_headers rb headers).body = rb.body := by
  induction headers generalizing rb with
  | nil => simp [Client.set_request_headers]
  | cons kv rest ih =>
      obtain ⟨h1, h2, h3⟩ := ih (rb.header kv.1 kv.2)
      refine ⟨?_, ?_, ?_⟩
      · rw [show (c.set_request_headers rb (kv :: rest)) =
            (c.set_request_headers (rb.header kv.1 kv.2) rest) from rfl, h1]
        simp [RequestBuilder.header]
      · rw [show (c.set_request_headers rb (kv :: rest)) =
            (c.set_request_headers (rb.header kv.1 kv.2) rest) from rfl, h2]
        rfl
      · rw [show (c.set_request_headers rb (kv :: rest)) =
            (c.set_request_headers (rb.header kv.1 kv.2) rest) from rfl, h3]
        rfl

theorem headerValues_append_header (rb : RequestBuilder) (k v : String) :
    (rb.header k v).headerValues k = rb.headerValues k ++ [v] := by
  unfold RequestBuilder.header RequestBuilder.headerValues
  simp

theorem authenticate_trace_eq (c : Client) (w : World) :
    (Client.authenticate c w).2.2 = (sendWithRetry (authRetries w) w.tokenAttempts).1 := by
  rcases authenticate_shape c w with ⟨e, hae⟩ | ⟨resp, r, _, _, hae⟩ <;> rw [hae]

theorem executeSend_result (d : Endpoint β ρ) (c : Client) (request : RequestBuilder)
    (w : World) (r : HttpResponse) (hp : w.primary = .response r) :
    (executeSend d c request w).1 =
      (if ¬ (200 ≤ r.status ∧ r.status ≤ 299) then
         match w.parseValidation r.body with
         | .ok envelope => .error (.Api envelope)
         | .error e => .error (.Decoding e)
       else execDecodeBody d r.body) := by
  unfold executeSend
  rw [hp]
  dsimp only
  split
  · cases w.parseValidation r.body <;> rfl
  · rfl

theorem execute_result_response (d : Endpoint β ρ) (c : Client) (request : RequestBuilder)
    (w : World) (r : HttpResponse) (hp : w.primary = .response r)
    (ha : ¬ (d.auth_strategy = AuthStrategy.TokenRefresh ∧ c.auth_data.about_to_expire w.now) ∨
          (Client.authenticate c w).1 = .ok ()) :
    (Client.execute d c request w).1 =
      (if ¬ (200 ≤ r.status ∧ r.status ≤ 299) then
         match w.parseValidation r.body with
         | .ok envelope => .error (.Api envelope)
         | .error e => .error (.Decoding e)
       else execDecodeBody d r.body) := by
  by_cases hg : d.auth_strategy = AuthStrategy.TokenRefresh ∧ c.auth_data.about_to_expire w.now
  · rcases authenticate_shape c w with ⟨e, hae⟩ | ⟨resp, rr, hsr, hpr, hae⟩
    · rcases ha with hng | hok
      · exact absurd hg hng
      · rw [hae] at hok
        exact absurd hok (by simp)
    · rw [execute_gated_ok d c request w _ _ hg hae]
      exact executeSend_result d _ request w r hp
  · rw [execute_not_gated d c request w hg]
    exact executeSend_result d c request w r hp

theorem execute_sent_request (d : Endpoint β ρ) (c : Client) (request : RequestBuilder)
    (w : World) : ∀ res c2 tr, Client.execute d c request w = (res, c2, tr) →
      ∀ sent, ExecEvent.primarySend sent ∈ tr →
        sent = request.header "authorization" ("Bearer " ++ c2.auth_data.access_token) := by
  intro res c2 tr h sent hmem
  by_cases hg : d.auth_strategy = AuthStrategy.TokenRefresh ∧ c.auth_data.about_to_expire w.now
  · rcases authenticate_shape c w with ⟨e, hae⟩ | ⟨resp, rr, hsr, hpr, hae⟩
    · rw [execute_gated_error d c request w e c _ hg hae] at h
      rw [Prod.mk.injEq, Prod.mk.injEq] at h
      obtain ⟨-, -, h3⟩ := h
      rw [← h3] at hmem
      simp at hmem
    · rw [execute_gated_ok d c request w _ _ hg hae] at h
      rw [Prod.mk.injEq, Prod.mk.injEq] at h
      obtain ⟨-, h2, h3⟩ := h
      rw [← h3, executeSend_trace_eq] at hmem
      simp only [List.mem_cons, List.not_mem_nil, or_false] at hmem
      rcases hmem with hmem | hmem
      · exact absurd hmem (by simp)
      · rw [← h2, executeSend_client_eq]
        exact ExecEvent.primarySend.inj hmem
  · rw [execute_not_gated d c request w hg] at h
    rw [Prod.mk.injEq, Prod.mk.injEq] at h
    obtain ⟨-, h2, h3⟩ := h
    rw [← h3, executeSend_trace_eq] at hmem
    simp only [List.mem_cons, List.not_mem_nil, or_false] at hmem
    rw [← h2, executeSend_client_eq]
    exact ExecEvent.primarySend.inj hmem

/-! ## Claim theorems -/

/-- C6: for every Client constructed from valid (username, secret,
environment) data and every path, `compose_url` returns the
environment-selected base URL with its path component set to the given path
(host `api-m.sandbox.paypal.com` for Sandbox, `api-m.paypal.com` — no
`sandbox.` prefix — for Live), and the client, in particular its stored base
URL, is unchanged by the call. -/
theorem compose_url_env_base (username client_secret : String) (environment : Environment)
    (request_path : String) (c : Client)
    (h : Client.new username client_secret environment = .ok c) :
    c.compose_url request_path =
      ({ scheme := "https",
         host := match environment with
                 | .Sandbox => "api-m.sandbox.paypal.com"
                 | .Live => "api-m.paypal.com",
         path := if startsWithSlash request_path then request_path
                 else "/" ++ request_path,
         query := none }, c) := by
  cases environment with
  | Sandbox =>
      obtain rfl := Except.ok.inj
        (show Except.ok (mkNewClient username client_secret Environment.Sandbox
            { scheme := "https", host := "api-m.sandbox.paypal.com",
              path := "/", query := none }) = Except.ok c from h)
      rfl
  | Live =>
      obtain rfl := Except.ok.inj
        (show Except.ok (mkNewClient username client_secret Environment.Live
            { scheme := "https", host := "api-m.paypal.com",
              path := "/", query := none }) = Except.ok c from h)
      rfl

/-- Witness for C6 at the spec's end-to-end scenario. -/
theorem compose_url_env_base_witness :
    Client.new "u" "p" Environment.Sandbox = Except.ok sandboxClient ∧
    sandboxClient.compose_url "v1/notifications/webhooks" =
      ({ scheme := "https", host := "api-m.sandbox.paypal.com",
         path := "/v1/notifications/webhooks", query := none }, sandboxClient) := by
  refine ⟨by decide, ?_⟩
  exact (compose_url_env_base "u" "p" Environment.Sandbox "v1/notifications/webhooks"
    sandboxClient (by decide)).trans (by decide)

/-- C10: for every username, secret and environment, `Client::new` returns
`Ok`: the environment base URL always parses (so the configuration-error
branch is unreachable), and the constructed client starts with the default,
never-authenticated `AuthData` (whose about-to-expire check is always
true). -/
theorem client_new_total (username client_secret : String) (environment : Environment) :
    (∃ c, Client.new username client_secret environment = .ok c ∧
          c.auth_data = AuthData.default) ∧
    (∀ now, AuthData.default.about_to_expire now = true) ∧
    (∃ u, (requestUrlFor environment).as_url = .ok u) := by
  refine ⟨?_, ?_, ?_⟩
  · cases environment
    · exact ⟨_, rfl, rfl⟩
    · exact ⟨_, rfl, rfl⟩
  · intro now
    simp only [AuthData.about_to_expire, AuthData.default]
    exact decide_eq_true (Nat.zero_le _)
  · cases environment
    · exact ⟨_, rfl⟩
    · exact ⟨_, rfl⟩

/-- C7: for every path and query object on a client whose base URL carries no
query: a query serializing to the empty string yields a URL with no query
component at all; a non-empty serialized query is attached and deserializes
back to the query object's key/value pairs; a serialization error is
returned as an error, not a URL. -/
theorem compose_url_with_query_spec (c : Client) (request_path : String)
    (query : QueryParams) (hb : c.base_url.query = none) :
    (serde_qs_to_string query = .ok "" →
       c.compose_url_with_query request_path query = .ok ((c.compose_url request_path).1) ∧
       ((c.compose_url request_path).1).query = none) ∧
    (∀ s, serde_qs_to_string query = .ok s → s ≠ "" →
       c.compose_url_with_query request_path query =
         .ok (((c.compose_url request_path).1).set_query (some s)) ∧
       parseQs s = query.qsPairs) ∧
    (∀ e, composeUrlWithSerializedQuery c request_path (.error e) = .error e) := by
  refine ⟨?_, ?_, ?_⟩
  · intro hser
    constructor
    · unfold Client.compose_url_with_query composeUrlWithSerializedQuery
      rw [hser]
      simp
    · show (c.base_url.set_path request_path).query = none
      unfold Url.set_path
      exact hb
  · intro s hser hne
    have hs' : s = String.mk (joinSep '&' (query.qsPairs.map renderPair)) :=
      (Except.ok.inj hser).symm
    constructor
    · unfold Client.compose_url_with_query composeUrlWithSerializedQuery
      rw [hser]
      simp [hne]
    · subst hs'
      apply parseQs_render
      intro hpairs
      apply hne
      rw [hpairs]
      rfl
  · intro e
    rfl

/-- Witness for C7: the empty query object, the spec's concrete query
`page=1&page_size=10&total_count_required=true`, and a serialization
error. -/
theorem compose_url_with_query_spec_witness :
    (sandboxClient.compose_url_with_query "test" QueryParams.new =
      .ok { scheme := "https", host := "api-m.sandbox.paypal.com",
            path := "/test", query := none }) ∧
    (sandboxClient.compose_url_with_query "test"
        { page := some 1, page_size := some 10, total_count_required := some true } =
      .ok { scheme := "https", host := "api-m.sandbox.paypal.com", path := "/test",
            query := some "page=1&page_size=10&total_count_required=true" }) ∧
    parseQs "page=1&page_size=10&total_count_required=true" =
      [("page", "1"), ("page_size", "10"), ("total_count_required", "true")] ∧
    composeUrlWithSerializedQuery sandboxClient "test"
        (.error (QsError.serialization "boom")) =
      .error (QsError.serialization "boom") := by
  refine ⟨?_, ?_, by decide, ?_⟩
  · exact (((compose_url_with_query_spec sandboxClient "test" QueryParams.new
      rfl).1 (by decide)).1).trans (by decide)
  · exact (((compose_url_with_query_spec sandboxClient "test"
      { page := some 1, page_size := some 10, total_count_required := some true }
      rfl).2.1 "page=1&page_size=10&total_count_required=true" (by decide)
      (by decide)).1).trans (by decide)
  · exact (compose_url_with_query_spec sandboxClient "test" QueryParams.new rfl).2.2
      (QsError.serialization "boom")

/-- C1 (amended): on a 2xx response (with any required refresh succeeded or
not required), if deserializing the body fails with an end-of-input error,
`execute` retries the deserialization on the empty object literal and
returns its result; any failure that is not end-of-input becomes a decoding
error. In particular an empty body on an empty-required response type yields
the empty-shaped result, and a non-empty malformed body whose failure is not
end-of-input yields a decoding error — but a non-empty truncated body that
fails WITH end-of-input is also retried on the empty object and can
succeed. -/
theorem execute_empty_body_normalization (d : Endpoint β ρ) (c : Client)
    (request : RequestBuilder) (w : World) (r : HttpResponse)
    (hp : w.primary = .response r)
    (hs : 200 ≤ r.status ∧ r.status ≤ 299)
    (ha : ¬ (d.auth_strategy = AuthStrategy.TokenRefresh ∧ c.auth_data.about_to_expire w.now) ∨
          (Client.authenticate c w).1 = .ok ()) :
    (Client.execute d c request w).1 = execDecodeBody d r.body ∧
    (∀ v, d.decodeResponse r.body = .ok v → (Client.execute d c request w).1 = .ok v) ∧
    (∀ e, d.decodeResponse r.body = .error e → e.is_eof = true →
       (Client.execute d c request w).1 =
         (match d.decodeResponse emptyObjectLiteral with
          | .ok v => .ok v
          | .error e2 => .error (.Decoding e2))) ∧
    (∀ e, d.decodeResponse r.body = .error e → e.is_eof = false →
       (Client.execute d c request w).1 = .error (.Decoding e)) := by
  have hmain : (Client.execute d c request w).1 = execDecodeBody d r.body := by
    rw [execute_result_response d c request w r hp ha, if_neg (not_not_intro hs)]
  refine ⟨hmain, ?_, ?_, ?_⟩
  · intro v hv
    rw [hmain]
    unfold execDecodeBody
    rw [hv]
  · intro e he his
    rw [hmain]
    unfold execDecodeBody
    rw [he]
    dsimp only
    rw [his]
    simp
  · intro e he his
    rw [hmain]
    unfold execDecodeBody
    rw [he]
    dsimp only
    rw [his]
    simp

/-- Counterexample for C1 as stated: the body consisting of a single opening
brace is non-empty and malformed (its deserialization fails), yet `execute`
on the empty-required response type returns success, not a decoding error,
because the failure is classified end-of-input and the empty-object retry
succeeds. -/
theorem execute_truncated_body_success :
    emptyShapeDecode "\x7b" = .error { is_eof := true } ∧
    ("\x7b" : String) ≠ "" ∧
    (Client.execute emptyBodyEndpoint freshClient deleteRequest
        { baseWorld with primary := .response { status := 200, body := "\x7b" } }).1 =
      .ok () := by
  refine ⟨rfl, by decide, rfl⟩

/-- Witness for C1: the empty body on the empty-required type succeeds with
the empty-shaped result; a malformed non-truncated body fails with a
decoding error. -/
theorem execute_empty_body_normalization_witness :
    (Client.execute emptyBodyEndpoint freshClient deleteRequest baseWorld).1 = .ok () ∧
    (Client.execute emptyBodyEndpoint freshClient deleteRequest badBodyWorld).1 =
      .error (.Decoding { is_eof := false }) := by
  constructor
  · exact ((execute_empty_body_normalization emptyBodyEndpoint freshClient deleteRequest
      baseWorld { status := 200, body := "" } rfl (by decide) (Or.inl (by decide))).2.2.1
        { is_eof := true } rfl rfl).trans (by decide)
  · exact (execute_empty_body_normalization emptyBodyEndpoint freshClient deleteRequest
      badBodyWorld { status := 200, body := "bad" } rfl (by decide) (Or.inl (by decide))).2.2.2
        { is_eof := false } rfl rfl

/-- C2 (amended): the Authenticator is invoked exactly when the descriptor's
strategy is TokenRefresh and the auth data is about to expire, and it
completes before the primary send; at most one primary request is sent per
`execute` call and the engine never retries it; exactly one is sent when no
refresh is required or the refresh succeeds, but ZERO are sent when a
required refresh fails. -/
theorem execute_auth_gating_trace (d : Endpoint β ρ) (c : Client)
    (request : RequestBuilder) (w : World) :
    (ExecEvent.authenticateCall ∈ (Client.execute d c request w).2.2 ↔
       (d.auth_strategy = AuthStrategy.TokenRefresh ∧ c.auth_data.about_to_expire w.now)) ∧
    countPrimary ((Client.execute d c request w).2.2) ≤ 1 ∧
    (¬ (d.auth_strategy = AuthStrategy.TokenRefresh ∧ c.auth_data.about_to_expire w.now) →
       ∃ sent, (Client.execute d c request w).2.2 = [ExecEvent.primarySend sent]) ∧
    ((d.auth_strategy = AuthStrategy.TokenRefresh ∧ c.auth_data.about_to_expire w.now) →
       (∀ e, (Client.authenticate c w).1 = .error e →
          (Client.execute d c request w).2.2 = [ExecEvent.authenticateCall]) ∧
       ((Client.authenticate c w).1 = .ok () →
          ∃ sent, (Client.execute d c request w).2.2 =
            [ExecEvent.authenticateCall, ExecEvent.primarySend sent])) := by
  by_cases hg : d.auth_strategy = AuthStrategy.TokenRefresh ∧ c.auth_data.about_to_expire w.now
  · rcases authenticate_shape c w with ⟨e, hae⟩ | ⟨resp, rr, hsr, hpr, hae⟩
    · have hex := execute_gated_error d c request w e c _ hg hae
      refine ⟨?_, ?_, ?_, ?_⟩
      · rw [hex]
        simpa using hg
      · rw [hex]
        exact Nat.zero_le 1
      · intro hng
        exact absurd hg hng
      · intro _
        constructor
        · intro e' _
          rw [hex]
        · intro hok
          rw [hae] at hok
          exact absurd hok (by simp)
    · have hex := execute_gated_ok d c request w _ _ hg hae
      refine ⟨?_, ?_, ?_, ?_⟩
      · rw [hex]
        simpa using hg
      · rw [hex]
        show countPrimary (ExecEvent.authenticateCall :: _) ≤ 1
        rw [executeSend_trace_eq]
        exact Nat.le_refl 1
      · intro hng
        exact absurd hg hng
      · intro _
        constructor
        · intro e' he'
          rw [hae] at he'
          exact absurd he' (by simp)
        · intro _
          rw [hex]
          show ∃ sent, ExecEvent.authenticateCall :: _ = _
          rw [executeSend_trace_eq]
          exact ⟨_, rfl⟩
  · have hex := execute_not_gated d c request w hg
    refine ⟨?_, ?_, ?_, ?_⟩
    · rw [hex, executeSend_trace_eq]
      simp only [List.mem_singleton]
      constructor
      · intro habs
        exact absurd habs (by simp)
      · intro habs
        exact absurd habs hg
    · rw [hex, executeSend_trace_eq]
      exact Nat.le_refl 1
    · intro _
      rw [hex, executeSend_trace_eq]
      exact ⟨_, rfl⟩
    · intro hg'
      exact absurd hg' hg

/-- Counterexample for C2 as stated: when the required token refresh fails,
`execute` returns the refresh error without sending any primary request, so
"exactly one primary HTTP request is sent per execute call" is false. -/
theorem execute_auth_failure_no_primary :
    (Client.execute emptyBodyEndpoint sandboxClient deleteRequest baseWorld).2.2 =
      [ExecEvent.authenticateCall] ∧
    countPrimary ((Client.execute emptyBodyEndpoint sandboxClient deleteRequest
      baseWorld).2.2) = 0 := by
  exact ⟨rfl, rfl⟩

/-- Witness for C2: a gated run that refreshes then sends once, and an
ungated run that sends exactly once. -/
theorem execute_auth_gating_trace_witness :
    ExecEvent.authenticateCall ∈
      (Client.execute emptyBodyEndpoint sandboxClient deleteRequest authOkWorld).2.2 ∧
    countPrimary ((Client.execute emptyBodyEndpoint freshClient deleteRequest
      baseWorld).2.2) ≤ 1 ∧
    (Client.execute emptyBodyEndpoint freshClient deleteRequest baseWorld).2.2 =
      [ExecEvent.primarySend (deleteRequest.header "authorization" "Bearer tok")] := by
  refine ⟨?_, ?_, by decide⟩
  · exact ((execute_auth_gating_trace emptyBodyEndpoint sandboxClient deleteRequest
      authOkWorld).1).mpr (by decide)
  · exact (execute_auth_gating_trace emptyBodyEndpoint freshClient deleteRequest
      baseWorld).2.1

/-- C3: if `authenticate` returns an error, the client — in particular its
shared AuthData — is unchanged; if it succeeds, AuthData afterwards holds
exactly the token, token type and expiry derived from the parsed token
response, replaced wholesale (no other field of the client changes). -/
theorem authenticate_authdata_spec (c : Client) (w : World) :
    (∀ e c1 tr, Client.authenticate c w = (.error e, c1, tr) → c1 = c) ∧
    (∀ c1 tr, Client.authenticate c w = (.ok (), c1, tr) →
       ∃ resp r, (sendWithRetry (authRetries w) w.tokenAttempts).2 = .response resp ∧
         w.parseAuthResponse resp.body = .ok r ∧
         c1 = { c with auth_data :=
           { access_token := r.access_token, token_type := r.token_type,
             expires_at := w.now + r.expires_in } }) := by
  rcases authenticate_shape c w with ⟨e0, hae⟩ | ⟨resp, r0, hsr, hpr, hae⟩
  · constructor
    · intro e c1 tr h
      rw [hae, Prod.mk.injEq, Prod.mk.injEq] at h
      exact h.2.1.symm
    · intro c1 tr h
      rw [hae, Prod.mk.injEq] at h
      exact absurd h.1 (by simp)
  · constructor
    · intro e c1 tr h
      rw [hae, Prod.mk.injEq] at h
      exact absurd h.1 (by simp)
    · intro c1 tr h
      rw [hae, Prod.mk.injEq, Prod.mk.injEq] at h
      exact ⟨resp, r0, hsr, hpr, h.2.1.symm⟩

/-- Witness for C3: a failed handshake leaves the client unchanged; a
successful one installs exactly the parsed token response. -/
theorem authenticate_authdata_spec_witness :
    (Client.authenticate sandboxClient baseWorld).2.1 = sandboxClient ∧
    (∃ resp r, (sendWithRetry (authRetries authOkWorld) authOkWorld.tokenAttempts).2 =
        .response resp ∧
      authOkWorld.parseAuthResponse resp.body = .ok r ∧
      ({ sandboxClient with auth_data :=
         { access_token := "T", token_type := "Bearer", expires_at := 100 } } : Client) =
        { sandboxClient with auth_data :=
          { access_token := r.access_token, token_type := r.token_type,
            expires_at := authOkWorld.now + r.expires_in } }) := by
  constructor
  · exact (authenticate_authdata_spec sandboxClient baseWorld).1 PayPalError.Transport
      sandboxClient [AttemptOutcome.networkError] (by decide)
  · exact (authenticate_authdata_spec sandboxClient authOkWorld).2
      { sandboxClient with auth_data :=
        { access_token := "T", token_type := "Bearer", expires_at := 100 } }
      [AttemptOutcome.response { status := 200, body := "tokenresponse" }] (by decide)

/-- C4: on a non-success primary status (with any required refresh succeeded
or not required), `execute` returns an API error carrying the envelope
parsed from the response body verbatim; if the envelope itself cannot be
parsed, it returns a decoding error — never success. -/
theorem execute_api_error_envelope (d : Endpoint β ρ) (c : Client)
    (request : RequestBuilder) (w : World) (r : HttpResponse)
    (hp : w.primary = .response r)
    (hs : ¬ (200 ≤ r.status ∧ r.status ≤ 299))
    (ha : ¬ (d.auth_strategy = AuthStrategy.TokenRefresh ∧ c.auth_data.about_to_expire w.now) ∨
          (Client.authenticate c w).1 = .ok ()) :
    (∀ v, w.parseValidation r.body = .ok v →
       (Client.execute d c request w).1 = .error (.Api v)) ∧
    (∀ e, w.parseValidation r.body = .error e →
       (Client.execute d c request w).1 = .error (.Decoding e)) := by
  have hmain := execute_result_response d c request w r hp ha
  rw [if_pos hs] at hmain
  constructor
  · intro v hv
    rw [hmain, hv]
  · intro e he
    rw [hmain, he]

/-- Witness for C4: a 404 with a well-formed envelope surfaces as an API
error carrying it; a 500 with an unparseable envelope surfaces as a decoding
error. -/
theorem execute_api_error_envelope_witness :
    (Client.execute emptyBodyEndpoint freshClient deleteRequest errorWorld).1 =
      .error (.Api { name := "RESOURCE_NOT_FOUND", message := "not found",
                     details := [], debug_id := some "d1" }) ∧
    (Client.execute emptyBodyEndpoint freshClient deleteRequest badEnvelopeWorld).1 =
      .error (.Decoding { is_eof := false }) := by
  constructor
  · exact (execute_api_error_envelope emptyBodyEndpoint freshClient deleteRequest
      errorWorld { status := 404, body := "errbody" } rfl (by decide)
      (Or.inl (by decide))).1 _ (by decide)
  · exact (execute_api_error_envelope emptyBodyEndpoint freshClient deleteRequest
      badEnvelopeWorld { status := 500, body := "zzz" } rfl (by decide)
      (Or.inl (by decide))).2 _ rfl

/-- C5: the token-endpoint send is wrapped in a retry policy bounded by the
descriptor's configured retry count (0 when unset, so a first failure fails
fast); every retried attempt was a transient transport-level failure; when
all attempts fail transiently exactly the bound plus one sends happen; and
the number of sends never depends on the token-response body parser, so a
malformed body is never retried. (Backoff delays are timing and are not
modelled.) -/
theorem authenticate_retry_policy (c : Client) (w : World) :
    (Client.authenticate c w).2.2 = (sendWithRetry (authRetries w) w.tokenAttempts).1 ∧
    (Client.authenticate c w).2.2.length ≤ authRetries w + 1 ∧
    (w.authEndpointRetryCount = none → (Client.authenticate c w).2.2.length = 1) ∧
    (∀ o ∈ (Client.authenticate c w).2.2.dropLast, transientFailure o = true) ∧
    ((∀ j, transientFailure (w.tokenAttempts j) = true) →
       (Client.authenticate c w).2.2.length = authRetries w + 1) ∧
    (∀ p, (Client.authenticate c { w with parseAuthResponse := p }).2.2 =
       (Client.authenticate c w).2.2) := by
  refine ⟨authenticate_trace_eq c w, ?_, ?_, ?_, ?_, ?_⟩
  · rw [authenticate_trace_eq]
    exact sendWithRetryAux_len w.tokenAttempts (authRetries w) 0
  · intro hnone
    rw [authenticate_trace_eq]
    unfold sendWithRetry authRetries
    rw [hnone]
    rfl
  · rw [authenticate_trace_eq]
    exact sendWithRetryAux_dropLast_transient w.tokenAttempts (authRetries w) 0
  · intro hall
    rw [authenticate_trace_eq]
    exact sendWithRetryAux_all_transient_len w.tokenAttempts hall (authRetries w) 0
  · intro p
    rw [authenticate_trace_eq, authenticate_trace_eq]
    rfl

/-- Witness for C5: no configured retries means one send; with 2 retries two
transient failures are retried and a definitive answer stops the loop; a
transient failure is transient; an always-failing endpoint is attempted
exactly three times under 2 retries. -/
theorem authenticate_retry_policy_witness :
    (Client.authenticate sandboxClient baseWorld).2.2.length = 1 ∧
    (Client.authenticate sandboxClient retryWorld).2.2 =
      [AttemptOutcome.networkError, AttemptOutcome.response { status := 500, body := "e" },
       AttemptOutcome.response { status := 200, body := "tokenresponse" }] ∧
    transientFailure AttemptOutcome.networkError = true ∧
    (Client.authenticate sandboxClient allFailWorld).2.2.length =
      authRetries allFailWorld + 1 := by
  refine ⟨?_, by decide, ?_, ?_⟩
  · exact (authenticate_retry_policy sandboxClient baseWorld).2.2.1 rfl
  · exact (authenticate_retry_policy sandboxClient retryWorld).2.2.2.1
      AttemptOutcome.networkError (by decide)
  · exact (authenticate_retry_policy sandboxClient allFailWorld).2.2.2.2.1 (fun j => rfl)

/-- C8 (amended): the request that goes out carries an
`Authorization: Bearer <token>` header whose token is read from AuthData
after any required refresh; reqwest's builder APPENDS it, so it is added
after — not replacing — any previously set Authorization header; only when
no prior Authorization header was set is the sent request's Authorization
exactly the Bearer token. -/
theorem execute_bearer_appended (d : Endpoint β ρ) (c : Client)
    (request : RequestBuilder) (w : World) :
    ∀ res c2 tr, Client.execute d c request w = (res, c2, tr) →
      ∀ sent, ExecEvent.primarySend sent ∈ tr →
        sent = request.header "authorization" ("Bearer " ++ c2.auth_data.access_token) ∧
        sent.headers = request.headers ++
          [("authorization", "Bearer " ++ c2.auth_data.access_token)] ∧
        (request.headerValues "authorization" = [] →
          sent.headerValues "authorization" =
            ["Bearer " ++ c2.auth_data.access_token]) := by
  intro res c2 tr h sent hmem
  have hsent := execute_sent_request d c request w res c2 tr h sent hmem
  refine ⟨hsent, ?_, ?_⟩
  · rw [hsent]
    rfl
  · intro hempty
    rw [hsent, headerValues_append_header, hempty]
    rfl

/-- Counterexample for C8 as stated: on a descriptor declaring a Basic
Authorization header, the request sent by `get` carries BOTH the Basic and
the appended Bearer value — the Bearer header does not override the prior
one. -/
theorem execute_bearer_not_override :
    (Client.get freshClient basicHeaderEndpoint baseWorld).2.2 =
      [ExecEvent.primarySend bearerSentRequest] ∧
    bearerSentRequest.headerValues "authorization" = ["Basic xyz", "Bearer tok"] ∧
    ¬ bearerSentRequest.headerValues "authorization" =
        ["Bearer " ++ freshClient.auth_data.access_token] := by
  refine ⟨by decide, by decide, by decide⟩

/-- Witness for C8: with no prior Authorization header the sent request's
Authorization is exactly the Bearer token. -/
theorem execute_bearer_appended_witness :
    (deleteRequest.header "authorization" "Bearer tok").headerValues "authorization" =
      ["Bearer " ++ freshClient.auth_data.access_token] := by
  exact (execute_bearer_appended emptyBodyEndpoint freshClient deleteRequest baseWorld
    (Except.ok ()) freshClient
    [ExecEvent.primarySend (deleteRequest.header "authorization" "Bearer tok")]
    (by decide) (deleteRequest.header "authorization" "Bearer tok") (by decide)).2.2
    (by decide)

/-- C9: `post` and `patch` serialize a present request body as JSON and
attach it, apply the descriptor's headers (followed by the engine's Bearer
header), and delegate to the executor; `get` and `delete` attach no body. -/
theorem verb_methods_spec (c : Client) (endpoint : Endpoint β ρ) (w : World) :
    (∀ b, endpoint.request_body = some b →
       ∀ res c2 tr, Client.post c endpoint w = (res, c2, tr) →
         ∀ sent, ExecEvent.primarySend sent ∈ tr →
           sent.method = "POST" ∧
           sent.body = some (endpoint.encodeBody b) ∧
           sent.headers = endpoint.headers ++
             [("authorization", "Bearer " ++ c2.auth_data.access_token)]) ∧
    (∀ b, endpoint.request_body = some b →
       ∀ res c2 tr, Client.patch c endpoint w = (res, c2, tr) →
         ∀ sent, ExecEvent.primarySend sent ∈ tr →
           sent.method = "PATCH" ∧
           sent.body = some (endpoint.encodeBody b) ∧
           sent.headers = endpoint.headers ++
             [("authorization", "Bearer " ++ c2.auth_data.access_token)]) ∧
    (∀ res c2 tr, Client.get c endpoint w = (res, c2, tr) →
       ∀ sent, ExecEvent.primarySend sent ∈ tr →
         sent.method = "GET" ∧ sent.body = none) ∧
    (∀ res c2 tr, Client.delete c endpoint w = (res, c2, tr) →
       ∀ sent, ExecEvent.primarySend sent ∈ tr →
         sent.method = "DELETE" ∧ sent.body = none) := by
  refine ⟨?_, ?_, ?_, ?_⟩
  · intro b hb res c2 tr h sent hmem
    have hsent := execute_sent_request endpoint c _ w res c2 tr h sent hmem
    obtain ⟨hh, hm, hbd⟩ := set_request_headers_headers c
      (freshRequest "POST" (endpoint.request_url c.environment)) endpoint.headers
    rw [hb] at hsent
    refine ⟨?_, ?_, ?_⟩
    · rw [hsent]
      show (c.set_request_headers _ endpoint.headers).method = "POST"
      rw [hm]
      rfl
    · rw [hsent]
      rfl
    · rw [hsent]
      show (c.set_request_headers _ endpoint.headers).headers ++ _ = _
      rw [hh]
      simp [freshRequest]
  · intro b hb res c2 tr h sent hmem
    have hsent := execute_sent_request endpoint c _ w res c2 tr h sent hmem
    obtain ⟨hh, hm, hbd⟩ := set_request_headers_headers c
      (freshRequest "PATCH" (endpoint.request_url c.environment)) endpoint.headers
    rw [hb] at hsent
    refine ⟨?_, ?_, ?_⟩
    · rw [hsent]
      show (c.set_request_headers _ endpoint.headers).method = "PATCH"
      rw [hm]
      rfl
    · rw [hsent]
      rfl
    · rw [hsent]
      show (c.set_request_headers _ endpoint.headers).headers ++ _ = _
      rw [hh]
      simp [freshRequest]
  · intro res c2 tr h sent hmem
    have hsent := execute_sent_request endpoint c _ w res c2 tr h sent hmem
    obtain ⟨hh, hm, hbd⟩ := set_request_headers_headers c
      (freshRequest "GET" (endpoint.request_url c.environment)) endpoint.headers
    constructor
    · rw [hsent]
      show (c.set_request_headers _ endpoint.headers).method = "GET"
      rw [hm]
      rfl
    · rw [hsent]
      show (c.set_request_headers _ endpoint.headers).body = none
      rw [hbd]
      rfl
  · intro res c2 tr h sent hmem
    have hsent := execute_sent_request endpoint c _ w res c2 tr h sent hmem
    obtain ⟨hh, hm, hbd⟩ := set_request_headers_headers c
      (freshRequest "DELETE" (endpoint.request_url c.environment)) endpoint.headers
    constructor
    · rw [hsent]
      show (c.set_request_headers _ endpoint.headers).method = "DELETE"
      rw [hm]
      rfl
    · rw [hsent]
      show (c.set_request_headers _ endpoint.headers).body = none
      rw [hbd]
      rfl

/-- Witness for C9: a POST with body 7 sends method POST, body "7" and the
descriptor headers followed by the Bearer header; a GET sends no body. -/
theorem verb_methods_spec_witness :
    sentPost.method = "POST" ∧
    sentPost.body = some (postBodyEndpoint.encodeBody 7) ∧
    sentPost.headers = postBodyEndpoint.headers ++
      [("authorization", "Bearer " ++ freshClient.auth_data.access_token)] ∧
    sentGet.method = "GET" ∧ sentGet.body = none := by
  obtain ⟨h1, h2, h3⟩ := (verb_methods_spec freshClient postBodyEndpoint baseWorld).1 7 rfl
    (Except.ok ()) freshClient [ExecEvent.primarySend sentPost] (by decide)
    sentPost (by decide)
  obtain ⟨h4, h5⟩ := (verb_methods_spec freshClient getPlainEndpoint baseWorld).2.2.1
    (Except.ok ()) freshClient [ExecEvent.primarySend sentGet] (by decide)
    sentGet (by decide)
  exact ⟨h1, h2, h3, h4, h5⟩

end Paypal
